import Mathlib

/-!
Shallow embedding of `src/storeroom/src/coefficient.cpp` (the Widmark
coefficient strategy family) and proofs about it.

Numeric model: C++ `double` values are modelled by `FP`, an idealized
IEEE-style type — exact rational finite values plus the special values
`inf`, `ninf` and `nan` produced by division by zero. Rounding and
overflow are abstracted away (finite arithmetic is exact); division by a
zero divisor follows the IEEE rules for a positive zero, which is the
only zero representable here. All formulas of the source are transcribed
over this type with the source's literal constants and parenthesisation.

The C++ `enum class Sex { M, F }` is modelled by its underlying integer
values (`M` = 0, `F` = 1, the declaration order); an `Int` outside
{0, 1} models a `Sex` value obtained through an explicit cast, which the
dispatcher's final `else` branch rejects. The single exception type the
source throws, `std::invalid_argument`, is modelled by `CppError`
carrying the message string; fallible functions return `Except`.
-/

inductive FP where
  | fin : ℚ → FP
  | inf : FP
  | ninf : FP
  | nan : FP
deriving DecidableEq

instance : OfScientific FP := ⟨fun m e d => .fin (OfScientific.ofScientific m e d)⟩

instance (n : Nat) : OfNat FP n := ⟨.fin (OfNat.ofNat n : ℚ)⟩

/-- IEEE negation on the idealized double type. -/
def FP.neg : FP → FP
  | .fin a => .fin (-a)
  | .inf => .ninf
  | .ninf => .inf
  | .nan => .nan

/-- IEEE addition on the idealized double type: finite addition is exact,
infinities of the same sign absorb, opposite infinities give `nan`,
`nan` propagates. -/
def FP.add : FP → FP → FP
  | .fin a, .fin b => .fin (a + b)
  | .fin _, .inf => .inf
  | .fin _, .ninf => .ninf
  | .inf, .fin _ => .inf
  | .ninf, .fin _ => .ninf
  | .inf, .inf => .inf
  | .ninf, .ninf => .ninf
  | .inf, .ninf => .nan
  | .ninf, .inf => .nan
  | .nan, _ => .nan
  | _, .nan => .nan

/-- The product of the finite value `a` with `+∞`: sign-directed infinity,
`nan` when `a = 0`. -/
def FP.mulPosInf (a : ℚ) : FP :=
  if 0 < a then .inf else if a < 0 then .ninf else .nan

/-- IEEE multiplication on the idealized double type. -/
def FP.mul : FP → FP → FP
  | .fin a, .fin b => .fin (a * b)
  | .fin a, .inf => FP.mulPosInf a
  | .inf, .fin a => FP.mulPosInf a
  | .fin a, .ninf => (FP.mulPosInf a).neg
  | .ninf, .fin a => (FP.mulPosInf a).neg
  | .inf, .inf => .inf
  | .inf, .ninf => .ninf
  | .ninf, .inf => .ninf
  | .ninf, .ninf => .inf
  | .nan, _ => .nan
  | _, .nan => .nan

/-- IEEE division on the idealized double type. A zero divisor is the
positive zero (the only zero representable here), so a finite nonzero
numerator gives a sign-directed infinity and `0 / 0` gives `nan`. -/
def FP.div : FP → FP → FP
  | .fin a, .fin b =>
      if b = 0 then (if 0 < a then .inf else if a < 0 then .ninf else .nan)
      else .fin (a / b)
  | .fin _, .inf => .fin 0
  | .fin _, .ninf => .fin 0
  | .inf, .fin b => if b < 0 then .ninf else .inf
  | .ninf, .fin b => if b < 0 then .inf else .ninf
  | _, _ => .nan

/-- IEEE subtraction: `x - y = x + (-y)`. -/
def FP.sub (x y : FP) : FP := x.add y.neg

instance : Add FP := ⟨FP.add⟩

instance : Sub FP := ⟨FP.sub⟩

instance : Mul FP := ⟨FP.mul⟩

instance : Div FP := ⟨FP.div⟩

instance : Neg FP := ⟨FP.neg⟩

/-- `true` exactly on ordinary finite values, `false` on `inf`, `ninf`
and `nan`. -/
def FP.isFinite : FP → Bool
  | .fin _ => true
  | _ => false

theorem FP.hAdd_def (a b : FP) : a + b = FP.add a b := rfl

theorem FP.hSub_def (a b : FP) : a - b = FP.add a b.neg := rfl

theorem FP.hMul_def (a b : FP) : a * b = FP.mul a b := rfl

theorem FP.hDiv_def (a b : FP) : a / b = FP.div a b := rfl

theorem FP.ofSci_def (m : Nat) (d : Bool) (e : Nat) :
    (OfScientific.ofScientific m d e : FP) = FP.fin (OfScientific.ofScientific m d e) := rfl

theorem FP.zero_def : (0 : FP) = FP.fin 0 := by
  show FP.fin ((OfNat.ofNat 0 : Nat) : ℚ) = FP.fin 0
  norm_num

theorem FP.one_def : (1 : FP) = FP.fin 1 := by
  show FP.fin ((OfNat.ofNat 1 : Nat) : ℚ) = FP.fin 1
  norm_num

theorem FP.add_not_finite (x y : FP) (h : y.isFinite = false) :
    (FP.add x y).isFinite = false := by
  cases x <;> cases y <;> simp_all [FP.add, FP.isFinite]

theorem FP.div_fin_zero_not_finite (x : FP) : (FP.div x (FP.fin 0)).isFinite = false := by
  cases x
  all_goals simp [FP.div, FP.isFinite]
  all_goals split_ifs
  all_goals simp [FP.isFinite]

theorem FP.neg_not_finite (x : FP) (h : x.isFinite = false) : (FP.neg x).isFinite = false := by
  cases x <;> simp_all [FP.neg, FP.isFinite]

theorem FP.add_not_finite_left (x y : FP) (h : x.isFinite = false) :
    (FP.add x y).isFinite = false := by
  cases x <;> cases y <;> simp_all [FP.add, FP.isFinite]

theorem FP.mulPosInf_not_finite (a : ℚ) : (FP.mulPosInf a).isFinite = false := by
  simp only [FP.mulPosInf]
  split_ifs <;> rfl

theorem FP.mul_not_finite (x y : FP) (h : y.isFinite = false) :
    (FP.mul x y).isFinite = false := by
  cases x <;> cases y <;>
    first
      | rfl
      | exact FP.mulPosInf_not_finite _
      | exact FP.neg_not_finite _ (FP.mulPosInf_not_finite _)
      | exact absurd h (by simp [FP.isFinite])

theorem FP.mul_not_finite_left (x y : FP) (h : x.isFinite = false) :
    (FP.mul x y).isFinite = false := by
  cases x <;> cases y <;>
    first
      | rfl
      | exact FP.mulPosInf_not_finite _
      | exact FP.neg_not_finite _ (FP.mulPosInf_not_finite _)
      | exact absurd h (by simp [FP.isFinite])

theorem FP.zero_mul_zero : FP.mul (FP.fin 0) (FP.fin 0) = FP.fin 0 := by
  simp [FP.mul]

/-- Underlying integer value of `Sex::M` in the C++ `enum class Sex`
(declared first, hence 0). -/
def Sex.M : Int := 0

/-- Underlying integer value of `Sex::F` in the C++ `enum class Sex`
(declared second, hence 1). -/
def Sex.F : Int := 1

/-- The one C++ exception type the source throws,
`std::invalid_argument`, carrying its message string. -/
inductive CppError where
  | invalid_argument : String → CppError
deriving DecidableEq

/-- The error the dispatcher throws on a sex tag that is neither `M` nor
`F`: `std::invalid_argument("Invalid sex")`. The spec's error taxonomy
names this `InvalidSex`. -/
def InvalidSex : CppError := .invalid_argument "Invalid sex"

/-- The error `Ulrich::forward_F` throws:
`std::invalid_argument("No estimator available")`. The spec's error
taxonomy names this `FormulaUnavailable`. -/
def FormulaUnavailable : CppError := .invalid_argument "No estimator available"

/-- The interface of the abstract base class `abc_Widmark`: a female and
a male branch, each a pure function of (H, W, g) that either returns a
double or throws. -/
structure Strategy where
  forward_F : FP → FP → FP → Except CppError FP
  forward_M : FP → FP → FP → Except CppError FP

/-- `abc_Widmark::operator()`: dispatch on the sex tag — `F` to
`forward_F`, else `M` to `forward_M`, else
`throw std::invalid_argument("Invalid sex")`. -/
def Strategy.call (s : Strategy) (sex : Int) (H W g : FP) : Except CppError FP :=
  if sex = Sex.F then s.forward_F H W g
  else if sex = Sex.M then s.forward_M H W g
  else .error (.invalid_argument "Invalid sex")

theorem Strategy.call_F (s : Strategy) (H W g : FP) :
    s.call Sex.F H W g = s.forward_F H W g := rfl

theorem Strategy.call_M (s : Strategy) (H W g : FP) :
    s.call Sex.M H W g = s.forward_M H W g := rfl

/-- The `Widmark` class of the source. -/
def Widmark : Strategy where
  forward_F := fun _ _ _ => .ok 0.55
  forward_M := fun _ _ _ => .ok 0.68

/-- The `Watson` class of the source. -/
def Watson : Strategy where
  forward_F := fun H W _g => .ok (0.29218 + (12.666 * H - 2.4846) / W)
  forward_M := fun H W g => .ok (0.39834 + (12.725 * H - 0.11275 * g + 2.8993) / W)

/-- The `Forrest` class of the source. -/
def Forrest : Strategy where
  forward_F := fun H W _ => .ok (0.8736 - 0.0124 * W / (H * H))
  forward_M := fun H W _ => .ok (1.0178 - 0.012127 * W / (H * H))

/-- The `Seidl` class of the source. -/
def Seidl : Strategy where
  forward_F := fun H W _ => .ok (0.31223 - 0.006446 * W + 0.4466 * H)
  forward_M := fun H W _ => .ok (0.31608 - 0.004821 * W + 0.4632 * H)

/-- The `Ulrich` class of the source: the female branch throws
`std::invalid_argument("No estimator available")`. -/
def Ulrich : Strategy where
  forward_F := fun _ _ _ => .error (.invalid_argument "No estimator available")
  forward_M := fun H W _ => .ok (0.715 - 0.00462 * W + 0.22 * H)

/-- The `Average` class of the source. -/
def Average : Strategy where
  forward_F := fun H W _g =>
    .ok (0.50766 + 0.11165 * H - W * (0.001612 + 0.0031 / (H * H)) -
      (1 / W) * (0.62115 - 3.1665 * H))
  forward_M := fun H W g =>
    .ok (0.62544 + 0.13664 * H - W * (0.00189 + 0.002425 / (H * H)) +
      (1 / W) * (0.57986 + 2.545 * H - 0.02255 * g))

/-- Names of the six concrete strategy classes. -/
inductive StratId where
  | widmark
  | watson
  | forrest
  | seidl
  | ulrich
  | average
deriving DecidableEq

/-- The strategy object each name denotes. -/
def strategyOf : StratId → Strategy
  | .widmark => Widmark
  | .watson => Watson
  | .forrest => Forrest
  | .seidl => Seidl
  | .ulrich => Ulrich
  | .average => Average

/-- Modelled from the spec's formula table (section 4.1): Widmark,
female branch — constant 0.55. -/
def spec_Widmark_F (_H _W _g : FP) : FP := 0.55

/-- Modelled from the spec's formula table (section 4.1): Widmark, male
branch — constant 0.68. -/
def spec_Widmark_M (_H _W _g : FP) : FP := 0.68

/-- Modelled from the spec's formula table (section 4.1): Watson, female
branch. -/
def spec_Watson_F (H W _g : FP) : FP := 0.29218 + (12.666 * H - 2.4846) / W

/-- Modelled from the spec's formula table (section 4.1): Watson, male
branch. -/
def spec_Watson_M (H W g : FP) : FP := 0.39834 + (12.725 * H - 0.11275 * g + 2.8993) / W

/-- Modelled from the spec's formula table (section 4.1): Forrest,
female branch (H squared written as H·H). -/
def spec_Forrest_F (H W _g : FP) : FP := 0.8736 - 0.0124 * W / (H * H)

/-- Modelled from the spec's formula table (section 4.1): Forrest, male
branch (H squared written as H·H). -/
def spec_Forrest_M (H W _g : FP) : FP := 1.0178 - 0.012127 * W / (H * H)

/-- Modelled from the spec's formula table (section 4.1): Seidl, female
branch. -/
def spec_Seidl_F (H W _g : FP) : FP := 0.31223 - 0.006446 * W + 0.4466 * H

/-- Modelled from the spec's formula table (section 4.1): Seidl, male
branch. -/
def spec_Seidl_M (H W _g : FP) : FP := 0.31608 - 0.004821 * W + 0.4632 * H

/-- Modelled from the spec's formula table (section 4.1): Ulrich, male
branch (the female branch is unavailable). -/
def spec_Ulrich_M (H W _g : FP) : FP := 0.715 - 0.00462 * W + 0.22 * H

/-- Modelled from the spec's formula table (section 4.1): Average,
female branch (H squared written as H·H). -/
def spec_Average_F (H W _g : FP) : FP :=
  0.50766 + 0.11165 * H - W * (0.001612 + 0.0031 / (H * H)) - (1 / W) * (0.62115 - 3.1665 * H)

/-- Modelled from the spec's formula table (section 4.1): Average, male
branch (H squared written as H·H). -/
def spec_Average_M (H W g : FP) : FP :=
  0.62544 + 0.13664 * H - W * (0.00189 + 0.002425 / (H * H)) +
    (1 / W) * (0.57986 + 2.545 * H - 0.02255 * g)

/-- One strategy invocation performed by the `main` driver: which class,
which sex tag, and the three numeric arguments passed. -/
structure Invocation where
  strat : StratId
  sex : Int
  H : FP
  W : FP
  g : FP

/-- The local variable `H` of `main`: `double H = 170.0`. -/
def main_H : FP := 170.0

/-- The local variable `W` of `main`: `double W = 70.0`. -/
def main_W : FP := 70.0

/-- The local variable `g` of `main`: `double g = 18.0`. -/
def main_g : FP := 18.0

/-- The twelve strategy invocations `main` performs, in order, each with
the arguments `(H, W, g) = (main_H, main_W, main_g)`. -/
def mainInvocations : List Invocation :=
  [⟨.widmark, Sex.F, main_H, main_W, main_g⟩,
   ⟨.widmark, Sex.M, main_H, main_W, main_g⟩,
   ⟨.watson, Sex.F, main_H, main_W, main_g⟩,
   ⟨.watson, Sex.M, main_H, main_W, main_g⟩,
   ⟨.forrest, Sex.F, main_H, main_W, main_g⟩,
   ⟨.forrest, Sex.M, main_H, main_W, main_g⟩,
   ⟨.seidl, Sex.F, main_H, main_W, main_g⟩,
   ⟨.seidl, Sex.M, main_H, main_W, main_g⟩,
   ⟨.ulrich, Sex.F, main_H, main_W, main_g⟩,
   ⟨.ulrich, Sex.M, main_H, main_W, main_g⟩,
   ⟨.average, Sex.F, main_H, main_W, main_g⟩,
   ⟨.average, Sex.M, main_H, main_W, main_g⟩]

/-- C1: for every strategy among Widmark, Watson, Forrest, Seidl, Ulrich
and Average and both sexes (except the Ulrich/Female pair), and for
every input triple (H, W, g), `call` returns exactly the value of the
corresponding closed-form expression of the spec's formula table,
evaluated in the same (idealized double) arithmetic. -/
theorem call_matches_spec_table :
    ∀ H W g : FP,
      Widmark.call Sex.F H W g = .ok (spec_Widmark_F H W g) ∧
      Widmark.call Sex.M H W g = .ok (spec_Widmark_M H W g) ∧
      Watson.call Sex.F H W g = .ok (spec_Watson_F H W g) ∧
      Watson.call Sex.M H W g = .ok (spec_Watson_M H W g) ∧
      Forrest.call Sex.F H W g = .ok (spec_Forrest_F H W g) ∧
      Forrest.call Sex.M H W g = .ok (spec_Forrest_M H W g) ∧
      Seidl.call Sex.F H W g = .ok (spec_Seidl_F H W g) ∧
      Seidl.call Sex.M H W g = .ok (spec_Seidl_M H W g) ∧
      Ulrich.call Sex.M H W g = .ok (spec_Ulrich_M H W g) ∧
      Average.call Sex.F H W g = .ok (spec_Average_F H W g) ∧
      Average.call Sex.M H W g = .ok (spec_Average_M H W g) :=
  fun _ _ _ => ⟨rfl, rfl, rfl, rfl, rfl, rfl, rfl, rfl, rfl, rfl, rfl⟩

/-- C2: for every input triple, Ulrich's female branch (`forward_F`, and
`call` with the female tag) fails with the `FormulaUnavailable` error
and returns no value, while Ulrich's male branch (`forward_M`, and
`call` with the male tag) succeeds and returns
0.715 − 0.00462·W + 0.22·H. -/
theorem ulrich_female_fails_male_succeeds :
    ∀ H W g : FP,
      Ulrich.forward_F H W g = .error FormulaUnavailable ∧
      Ulrich.call Sex.F H W g = .error FormulaUnavailable ∧
      Ulrich.forward_M H W g = .ok (0.715 - 0.00462 * W + 0.22 * H) ∧
      Ulrich.call Sex.M H W g = .ok (0.715 - 0.00462 * W + 0.22 * H) :=
  fun _ _ _ => ⟨rfl, rfl, rfl, rfl⟩

/-- C6: the adjustment parameter g influences the result only in
Watson's male branch and Average's male branch — every other
strategy/sex branch (Widmark both, Watson female, Forrest both, Seidl
both, Ulrich male, Average female) returns the same result for any two
values of g, for every height and weight. -/
theorem adjustment_ignored_outside_watson_average_male :
    ∀ H W g g' : FP,
      Widmark.call Sex.F H W g = Widmark.call Sex.F H W g' ∧
      Widmark.call Sex.M H W g = Widmark.call Sex.M H W g' ∧
      Watson.call Sex.F H W g = Watson.call Sex.F H W g' ∧
      Forrest.call Sex.F H W g = Forrest.call Sex.F H W g' ∧
      Forrest.call Sex.M H W g = Forrest.call Sex.M H W g' ∧
      Seidl.call Sex.F H W g = Seidl.call Sex.F H W g' ∧
      Seidl.call Sex.M H W g = Seidl.call Sex.M H W g' ∧
      Ulrich.call Sex.M H W g = Ulrich.call Sex.M H W g' ∧
      Average.call Sex.F H W g = Average.call Sex.F H W g' :=
  fun _ _ _ _ => ⟨rfl, rfl, rfl, rfl, rfl, rfl, rfl, rfl, rfl⟩

/-- C7: every strategy's `call`, `forward_F` and `forward_M` are
deterministic and side-effect free. The C++ classes carry no data
members, so the embedding is a pure function of the arguments: purity
holds by construction, and repeated invocations with identical inputs
are definitionally the same value. -/
theorem call_deterministic :
    ∀ (s : Strategy) (sex : Int) (H W g : FP),
      s.call sex H W g = s.call sex H W g ∧
      s.forward_F H W g = s.forward_F H W g ∧
      s.forward_M H W g = s.forward_M H W g :=
  fun _ _ _ _ _ => ⟨rfl, rfl, rfl⟩

/-- C8: `Widmark.call` at the sample input (1.70, 70.0, 18.0) returns
exactly 0.68 for the male tag and exactly 0.55 for the female tag, and
Widmark's two branches return these constants for every input triple. -/
theorem widmark_constant_coefficients :
    Widmark.call Sex.M 1.70 70.0 18.0 = .ok 0.68 ∧
    Widmark.call Sex.F 1.70 70.0 18.0 = .ok 0.55 ∧
    (∀ H W g : FP,
      Widmark.call Sex.M H W g = .ok 0.68 ∧ Widmark.call Sex.F H W g = .ok 0.55) :=
  ⟨rfl, rfl, fun _ _ _ => ⟨rfl, rfl⟩⟩

/-- C3: for every strategy and every input triple, `call` with a sex tag
that is neither `M` nor `F` fails with the `InvalidSex` error, and the
dispatcher returns that error exactly when the sex tag is invalid — on a
valid tag the result is never `InvalidSex` (Ulrich's female branch fails
with the distinct `FormulaUnavailable` error instead). -/
theorem call_invalid_sex_iff :
    ∀ (id : StratId) (sex : Int) (H W g : FP),
      (strategyOf id).call sex H W g = .error InvalidSex ↔
        (sex ≠ Sex.M ∧ sex ≠ Sex.F) := by
  intro id sex H W g
  by_cases hF : sex = Sex.F
  · subst hF
    constructor
    · intro h
      exfalso
      cases id <;> revert h <;>
        simp [strategyOf, Strategy.call, Widmark, Watson, Forrest, Seidl, Ulrich, Average,
          InvalidSex]
    · rintro ⟨-, h⟩
      exact absurd rfl h
  · by_cases hM : sex = Sex.M
    · subst hM
      constructor
      · intro h
        exfalso
        cases id <;> revert h <;>
          simp [strategyOf, Strategy.call, Sex.M, Sex.F, Widmark, Watson, Forrest, Seidl,
            Ulrich, Average, InvalidSex]
      · rintro ⟨h, -⟩
        exact absurd rfl h
    · simp [Strategy.call, hF, hM, InvalidSex]

/-- C4: the two failure modes are distinguishable to the caller — the
error raised by dispatch on a bad sex tag and the error raised by
Ulrich's female branch are different `CppError` values (different
exception messages), on every input on which each is raised. -/
theorem invalid_sex_ne_formula_unavailable :
    InvalidSex ≠ FormulaUnavailable ∧
    (∀ (id : StratId) (sex : Int) (H W g : FP), sex ≠ Sex.M → sex ≠ Sex.F →
      (strategyOf id).call sex H W g = .error InvalidSex) ∧
    (∀ H W g : FP, Ulrich.call Sex.F H W g = .error FormulaUnavailable) := by
  refine ⟨by simp [InvalidSex, FormulaUnavailable], ?_, fun _ _ _ => rfl⟩
  intro id sex H W g hM hF
  simp [Strategy.call, hF, hM, InvalidSex]

/-- Witness for C4 at concrete inputs: sex tag 2 (neither `M` = 0 nor
`F` = 1) makes Widmark's dispatch fail with `InvalidSex`, Ulrich's
female branch fails with `FormulaUnavailable`, and the two errors
differ. -/
theorem invalid_sex_ne_formula_unavailable_witness :
    (strategyOf .widmark).call 2 0 0 0 = .error InvalidSex ∧
    Ulrich.call Sex.F 0 0 0 = .error FormulaUnavailable ∧
    InvalidSex ≠ FormulaUnavailable :=
  ⟨invalid_sex_ne_formula_unavailable.2.1 .widmark 2 0 0 0 (by decide) (by decide),
   invalid_sex_ne_formula_unavailable.2.2 0 0 0,
   invalid_sex_ne_formula_unavailable.1⟩

/-- C5: `Watson.call` with the female tag at (1.70, 0.0, 18.0) returns
the non-error value `+∞`; and in every formula that divides, a zero
divisor input (zero weight for Watson's division by W, zero height for
Forrest's division by H·H, and either zero for Average, which divides by
both) makes the branch return an ordinary non-error value that is
infinite or NaN: division by zero propagates as the numeric type's
division-by-zero result instead of being converted into an error. -/
theorem watson_division_by_zero_is_not_an_error :
    Watson.call Sex.F 1.70 0 18.0 = .ok FP.inf ∧
    (∀ H g : FP, ∃ v, Watson.call Sex.F H (FP.fin 0) g = .ok v ∧ v.isFinite = false) ∧
    (∀ H g : FP, ∃ v, Watson.call Sex.M H (FP.fin 0) g = .ok v ∧ v.isFinite = false) ∧
    (∀ W g : FP, ∃ v, Forrest.call Sex.F (FP.fin 0) W g = .ok v ∧ v.isFinite = false) ∧
    (∀ W g : FP, ∃ v, Forrest.call Sex.M (FP.fin 0) W g = .ok v ∧ v.isFinite = false) ∧
    (∀ W g : FP, ∃ v, Average.call Sex.F (FP.fin 0) W g = .ok v ∧ v.isFinite = false) ∧
    (∀ W g : FP, ∃ v, Average.call Sex.M (FP.fin 0) W g = .ok v ∧ v.isFinite = false) ∧
    (∀ H g : FP, ∃ v, Average.call Sex.F H (FP.fin 0) g = .ok v ∧ v.isFinite = false) ∧
    (∀ H g : FP, ∃ v, Average.call Sex.M H (FP.fin 0) g = .ok v ∧ v.isFinite = false) := by
  refine ⟨?_, ?_, ?_, ?_, ?_, ?_, ?_, ?_, ?_⟩
  · show Except.ok _ = _
    norm_num [Watson, FP.hAdd_def, FP.hSub_def, FP.hMul_def, FP.hDiv_def,
      FP.ofSci_def, FP.zero_def, FP.add, FP.mul, FP.div, FP.neg]
  · intro H g
    refine ⟨_, rfl, ?_⟩
    show ((0.29218 : FP) + (12.666 * H - 2.4846) / FP.fin 0).isFinite = false
    simp only [FP.ofSci_def, FP.hAdd_def, FP.hSub_def, FP.hMul_def, FP.hDiv_def]
    exact FP.add_not_finite _ _ (FP.div_fin_zero_not_finite _)
  · intro H g
    refine ⟨_, rfl, ?_⟩
    show ((0.39834 : FP) + (12.725 * H - 0.11275 * g + 2.8993) / FP.fin 0).isFinite = false
    simp only [FP.ofSci_def, FP.hAdd_def, FP.hSub_def, FP.hMul_def, FP.hDiv_def]
    exact FP.add_not_finite _ _ (FP.div_fin_zero_not_finite _)
  · intro W g
    refine ⟨_, rfl, ?_⟩
    show ((0.8736 : FP) - 0.0124 * W / (FP.fin 0 * FP.fin 0)).isFinite = false
    simp only [FP.ofSci_def, FP.hAdd_def, FP.hSub_def, FP.hMul_def, FP.hDiv_def,
      FP.zero_mul_zero]
    exact FP.add_not_finite _ _ (FP.neg_not_finite _ (FP.div_fin_zero_not_finite _))
  · intro W g
    refine ⟨_, rfl, ?_⟩
    show ((1.0178 : FP) - 0.012127 * W / (FP.fin 0 * FP.fin 0)).isFinite = false
    simp only [FP.ofSci_def, FP.hAdd_def, FP.hSub_def, FP.hMul_def, FP.hDiv_def,
      FP.zero_mul_zero]
    exact FP.add_not_finite _ _ (FP.neg_not_finite _ (FP.div_fin_zero_not_finite _))
  · intro W g
    refine ⟨_, rfl, ?_⟩
    show ((0.50766 : FP) + 0.11165 * FP.fin 0 -
      W * (0.001612 + 0.0031 / (FP.fin 0 * FP.fin 0)) -
      (1 / W) * (0.62115 - 3.1665 * FP.fin 0)).isFinite = false
    simp only [FP.ofSci_def, FP.hAdd_def, FP.hSub_def, FP.hMul_def, FP.hDiv_def,
      FP.zero_mul_zero]
    exact FP.add_not_finite_left _ _ (FP.add_not_finite _ _ (FP.neg_not_finite _
      (FP.mul_not_finite _ _ (FP.add_not_finite _ _ (FP.div_fin_zero_not_finite _)))))
  · intro W g
    refine ⟨_, rfl, ?_⟩
    show ((0.62544 : FP) + 0.13664 * FP.fin 0 -
      W * (0.00189 + 0.002425 / (FP.fin 0 * FP.fin 0)) +
      (1 / W) * (0.57986 + 2.545 * FP.fin 0 - 0.02255 * g)).isFinite = false
    simp only [FP.ofSci_def, FP.hAdd_def, FP.hSub_def, FP.hMul_def, FP.hDiv_def,
      FP.zero_mul_zero]
    exact FP.add_not_finite_left _ _ (FP.add_not_finite _ _ (FP.neg_not_finite _
      (FP.mul_not_finite _ _ (FP.add_not_finite _ _ (FP.div_fin_zero_not_finite _)))))
  · intro H g
    refine ⟨_, rfl, ?_⟩
    show ((0.50766 : FP) + 0.11165 * H -
      FP.fin 0 * (0.001612 + 0.0031 / (H * H)) -
      (1 / FP.fin 0) * (0.62115 - 3.1665 * H)).isFinite = false
    simp only [FP.ofSci_def, FP.hAdd_def, FP.hSub_def, FP.hMul_def, FP.hDiv_def]
    exact FP.add_not_finite _ _ (FP.neg_not_finite _
      (FP.mul_not_finite_left _ _ (FP.div_fin_zero_not_finite _)))
  · intro H g
    refine ⟨_, rfl, ?_⟩
    show ((0.62544 : FP) + 0.13664 * H -
      FP.fin 0 * (0.00189 + 0.002425 / (H * H)) +
      (1 / FP.fin 0) * (0.57986 + 2.545 * H - 0.02255 * g)).isFinite = false
    simp only [FP.ofSci_def, FP.hAdd_def, FP.hSub_def, FP.hMul_def, FP.hDiv_def]
    exact FP.add_not_finite _ _
      (FP.mul_not_finite_left _ _ (FP.div_fin_zero_not_finite _))

/-- C9 counterexample: the claim that every strategy invocation of the
demonstration driver passes height 1.70 is false — `main` sets
`double H = 170.0`, so the very first invocation already passes
height 170, not 1.70. -/
theorem main_height_is_not_1_70 :
    ¬ (∀ inv ∈ mainInvocations, inv.H = FP.fin 1.70) := by
  intro h
  have h1 := h ⟨.widmark, Sex.F, main_H, main_W, main_g⟩ (List.mem_cons_self _ _)
  rw [show main_H = FP.fin 170 from by norm_num [main_H, FP.ofSci_def]] at h1
  simp only [FP.fin.injEq] at h1
  norm_num at h1

/-- C9 (amended): the demonstration driver invokes every strategy for
both sexes with the fixed sample input height = 170.0, weight = 70.0,
adjustment = 18.0 — every invocation it performs passes exactly these
three values. -/
theorem main_passes_170_70_18 :
    main_H = FP.fin 170 ∧ main_W = FP.fin 70 ∧ main_g = FP.fin 18 ∧
    (∀ inv ∈ mainInvocations, inv.H = main_H ∧ inv.W = main_W ∧ inv.g = main_g) ∧
    (∀ id : StratId, ∃ inv ∈ mainInvocations, inv.strat = id) := by
  refine ⟨by norm_num [main_H, FP.ofSci_def], by norm_num [main_W, FP.ofSci_def],
    by norm_num [main_g, FP.ofSci_def], ?_, ?_⟩
  · intro inv hinv
    simp only [mainInvocations, List.mem_cons, List.not_mem_nil, or_false] at hinv
    rcases hinv with h | h | h | h | h | h | h | h | h | h | h | h <;> subst h <;>
      exact ⟨rfl, rfl, rfl⟩
  · intro id
    cases id
    · exact ⟨⟨.widmark, Sex.F, main_H, main_W, main_g⟩, by simp [mainInvocations], rfl⟩
    · exact ⟨⟨.watson, Sex.F, main_H, main_W, main_g⟩, by simp [mainInvocations], rfl⟩
    · exact ⟨⟨.forrest, Sex.F, main_H, main_W, main_g⟩, by simp [mainInvocations], rfl⟩
    · exact ⟨⟨.seidl, Sex.F, main_H, main_W, main_g⟩, by simp [mainInvocations], rfl⟩
    · exact ⟨⟨.ulrich, Sex.F, main_H, main_W, main_g⟩, by simp [mainInvocations], rfl⟩
    · exact ⟨⟨.average, Sex.F, main_H, main_W, main_g⟩, by simp [mainInvocations], rfl⟩

/-- Witness for C9 (amended) at a concrete invocation: the first
invocation of the driver (Widmark, female) passes the driver's argument
values. -/
theorem main_passes_170_70_18_witness :
    (⟨.widmark, Sex.F, main_H, main_W, main_g⟩ : Invocation).H = main_H :=
  (main_passes_170_70_18.2.2.2.1 ⟨.widmark, Sex.F, main_H, main_W, main_g⟩
    (List.mem_cons_self _ _)).1

/-- C10: Widmark and Seidl perform no division, so on every finite input
triple — including zero weight and zero height — both branches return an
ordinary finite value, whereas at height 0 and weight 0 each of Watson,
Forrest and Average returns an infinite or NaN value. -/
theorem widmark_seidl_always_finite :
    (∀ H W g : ℚ,
      (∃ q, Widmark.call Sex.F (.fin H) (.fin W) (.fin g) = .ok (FP.fin q)) ∧
      (∃ q, Widmark.call Sex.M (.fin H) (.fin W) (.fin g) = .ok (FP.fin q)) ∧
      (∃ q, Seidl.call Sex.F (.fin H) (.fin W) (.fin g) = .ok (FP.fin q)) ∧
      (∃ q, Seidl.call Sex.M (.fin H) (.fin W) (.fin g) = .ok (FP.fin q))) ∧
    (∃ v, Watson.call Sex.F (FP.fin 0) (FP.fin 0) (FP.fin 18) = .ok v ∧ v.isFinite = false) ∧
    (∃ v, Watson.call Sex.M (FP.fin 0) (FP.fin 0) (FP.fin 18) = .ok v ∧ v.isFinite = false) ∧
    (∃ v, Forrest.call Sex.F (FP.fin 0) (FP.fin 0) (FP.fin 18) = .ok v ∧ v.isFinite = false) ∧
    (∃ v, Forrest.call Sex.M (FP.fin 0) (FP.fin 0) (FP.fin 18) = .ok v ∧ v.isFinite = false) ∧
    (∃ v, Average.call Sex.F (FP.fin 0) (FP.fin 0) (FP.fin 18) = .ok v ∧ v.isFinite = false) ∧
    (∃ v, Average.call Sex.M (FP.fin 0) (FP.fin 0) (FP.fin 18) = .ok v ∧ v.isFinite = false) := by
  refine ⟨fun H W g => ⟨⟨_, rfl⟩, ⟨_, rfl⟩, ⟨_, rfl⟩, ⟨_, rfl⟩⟩, ?_, ?_, ?_, ?_, ?_, ?_⟩
  · refine ⟨FP.ninf, ?_, rfl⟩
    show Except.ok _ = _
    norm_num [Watson, FP.hAdd_def, FP.hSub_def, FP.hMul_def, FP.hDiv_def,
      FP.ofSci_def, FP.add, FP.mul, FP.div, FP.neg, FP.mulPosInf]
  · refine ⟨FP.inf, ?_, rfl⟩
    show Except.ok _ = _
    norm_num [Watson, FP.hAdd_def, FP.hSub_def, FP.hMul_def, FP.hDiv_def,
      FP.ofSci_def, FP.add, FP.mul, FP.div, FP.neg, FP.mulPosInf]
  · refine ⟨FP.nan, ?_, rfl⟩
    show Except.ok _ = _
    norm_num [Forrest, FP.hAdd_def, FP.hSub_def, FP.hMul_def, FP.hDiv_def,
      FP.ofSci_def, FP.add, FP.mul, FP.div, FP.neg, FP.mulPosInf]
  · refine ⟨FP.nan, ?_, rfl⟩
    show Except.ok _ = _
    norm_num [Forrest, FP.hAdd_def, FP.hSub_def, FP.hMul_def, FP.hDiv_def,
      FP.ofSci_def, FP.add, FP.mul, FP.div, FP.neg, FP.mulPosInf]
  · refine ⟨FP.nan, ?_, rfl⟩
    show Except.ok _ = _
    norm_num [Average, FP.hAdd_def, FP.hSub_def, FP.hMul_def, FP.hDiv_def,
      FP.ofSci_def, FP.one_def, FP.add, FP.mul, FP.div, FP.neg, FP.mulPosInf]
  · refine ⟨FP.nan, ?_, rfl⟩
    show Except.ok _ = _
    norm_num [Average, FP.hAdd_def, FP.hSub_def, FP.hMul_def, FP.hDiv_def,
      FP.ofSci_def, FP.one_def, FP.add, FP.mul, FP.div, FP.neg, FP.mulPosInf]
